import Mathlib

/-! kubebuilder-zap-example: the logger construction pipeline

A shallow embedding of `src/kubebuilder-zap-example/main.go`.

Conventions of the embedding.

* A Go pointer to a configuration struct that a function mutates in place
  (`o *zap.Options`) is a value passed in and returned.
* A field of interface, pointer or function type that may be `nil` is an
  `Option`; a slice is a `List` (the nil slice is `[]`).
* A level handle (`*AtomicLevel` behind `zapcore.LevelEnabler`) is modelled by
  the threshold it holds: the program never stores into a handle after
  creating it.
* Values of the logging libraries (`go.uber.org/zap`, `zapcore`,
  controller-runtime `zap`, `zapr`) that the program only passes around are
  constructors of data types named after the library function that builds
  them.
-/

namespace ZapExample

/-! ## Levels -/

/-- The severity of a record, `zapcore.Level` (an `int8` in the library). -/
abbrev Level := Int

/-- Library constant `zapcore.DebugLevel`. -/
def DebugLevel : Level := -1
/-- Library constant `zapcore.InfoLevel`, the baseline. -/
def InfoLevel : Level := 0
/-- Library constant `zapcore.WarnLevel`. -/
def WarnLevel : Level := 1
/-- Library constant `zapcore.ErrorLevel`. -/
def ErrorLevel : Level := 2
/-- Library constant `zapcore.DPanicLevel`. -/
def DPanicLevel : Level := 3
/-- Library constant `zapcore.PanicLevel`. -/
def PanicLevel : Level := 4
/-- Library constant `zapcore.FatalLevel`. -/
def FatalLevel : Level := 5

/-- A level threshold handle (`zapcore.LevelEnabler` holding an `AtomicLevel`),
modelled by the threshold it holds. -/
structure LevelEnabler where
  threshold : Level
deriving DecidableEq, Repr

/-- Library constructor `uzap.NewAtomicLevelAt`. -/
def NewAtomicLevelAt (l : Level) : LevelEnabler := ⟨l⟩

/-- Modelled from the spec: the method `Enabled` of the zap level threshold is
library code, not under src. Spec §2: a record is emitted only if its severity
is greater than or equal to the current threshold. -/
def LevelEnabler.Enabled (e : LevelEnabler) (lvl : Level) : Bool :=
  decide (e.threshold ≤ lvl)

/-- The level filter of a sink core. With a nil enabler the Go call panics and
nothing is written: no level is enabled. -/
def enabledAt : Option LevelEnabler → Level → Bool
  | some e, lvl => e.Enabled lvl
  | none, _ => false

/-! ## Streams -/

/-- A destination byte stream (`io.Writer`), by identity. -/
inductive Writer where
  | Stderr
  | Stdout
  | File (fd : Nat)
deriving DecidableEq, Repr

/-- A `zapcore.WriteSyncer`: the result of `zapcore.AddSync` on a stream (the
argument is `none` for a nil `io.Writer`), possibly wrapped by `zapcore.Lock`. -/
inductive WriteSyncer where
  | AddSync (w : Option Writer)
  | Lock (ws : WriteSyncer)
deriving DecidableEq, Repr

/-- The destination stream a write syncer writes to. -/
def WriteSyncer.stream : WriteSyncer → Option Writer
  | AddSync w => w
  | Lock ws => ws.stream

/-! ## Encoders -/

/-- A time formatting function (`zapcore.TimeEncoder`), by identity. -/
inductive TimeEncoder where
  | EpochTimeEncoder
  | EpochMillisTimeEncoder
  | EpochNanosTimeEncoder
  | ISO8601TimeEncoder
  | RFC3339TimeEncoder
  | RFC3339NanoTimeEncoder
  | Custom (id : Nat)
deriving DecidableEq, Repr

/-- The encoder configuration `zapcore.EncoderConfig`: the key names and the
time formatting function. -/
structure EncoderConfig where
  TimeKey : String
  LevelKey : String
  NameKey : String
  CallerKey : String
  MessageKey : String
  StacktraceKey : String
  EncodeTime : TimeEncoder
deriving DecidableEq, Repr

/-- Library constructor `uzap.NewProductionEncoderConfig`. -/
def NewProductionEncoderConfig : EncoderConfig :=
  { TimeKey := "ts", LevelKey := "level", NameKey := "logger", CallerKey := "caller",
    MessageKey := "msg", StacktraceKey := "stacktrace",
    EncodeTime := TimeEncoder.EpochTimeEncoder }

/-- An encoder configuration option `zap.EncoderConfigOption`,
`func(*zapcore.EncoderConfig)`. -/
abbrev EncoderConfigOption := EncoderConfig → EncoderConfig

/-- A record serializer `zapcore.Encoder`. -/
inductive Encoder where
  | NewJSONEncoder (cfg : EncoderConfig)
  | NewConsoleEncoder (cfg : EncoderConfig)
deriving DecidableEq, Repr

/-- An encoder factory `zap.NewEncoderFunc`; the interface value it returns may
be nil. -/
abbrev NewEncoderFunc := List EncoderConfigOption → Option Encoder

/-- The encoder wrapper `zap.KubeAwareEncoder`. -/
structure KubeAwareEncoder where
  Encoder : Option Encoder
  Verbose : Bool
deriving DecidableEq, Repr

/-! ## Decorators of the logging library -/

/-- A function from core to core handed to `uzap.WrapCore`. The program has one:
`func(core) { return uzapcore.NewSamplerWithOptions(core, tick, first, thereafter) }`,
with the window `tick` in nanoseconds. -/
inductive CoreWrapper where
  | NewSamplerWithOptions (tick : Int) (first thereafter : Nat)
deriving DecidableEq, Repr

/-- A logger decorator `uzap.Option`. -/
inductive ZapOption where
  | WrapCore (f : CoreWrapper)
  | AddStacktrace (lvl : LevelEnabler)
  | ErrorOutput (w : WriteSyncer)
  | AddCaller
  | AddCallerSkip (skip : Nat)
  | Development
deriving DecidableEq, Repr

/-! ## Options -/

/-- The configuration of one sink, `zap.Options` of controller-runtime. -/
structure Options where
  Development : Bool
  Encoder : Option Encoder
  EncoderConfigOptions : List EncoderConfigOption
  NewEncoder : Option NewEncoderFunc
  DestWriter : Option Writer
  Level : Option LevelEnabler
  StacktraceLevel : Option LevelEnabler
  ZapOpts : List ZapOption
  TimeEncoder : Option TimeEncoder

/-- The zero value `&zap.Options{}`. -/
def Options.zero : Options :=
  { Development := false, Encoder := none, EncoderConfigOptions := [], NewEncoder := none,
    DestWriter := none, Level := none, StacktraceLevel := none, ZapOpts := [],
    TimeEncoder := none }

/-- A caller option function `zap.Opts`, `func(*Options)`. -/
abbrev Opts := Options → Options

/-- Library function `zap.UseFlagOptions`: `func(o *Options) { *o = *in }`. -/
def UseFlagOptions (src : Options) : Opts := fun _ => src

/-- The duration `time.Second`, in nanoseconds. -/
def timeSecond : Int := 1000000000

/-! ## zapDefaultOpts -/

/-- The closure `newJSONEncoder` of `zapDefaultOpts`: the options are applied in
order to the production configuration. -/
def newJSONEncoder (opts : List EncoderConfigOption) : Option Encoder :=
  let encoderConfig := opts.foldl (fun cfg opt => opt cfg) NewProductionEncoderConfig
  some (Encoder.NewJSONEncoder encoderConfig)

/-- The sampling decorator built in `addDefaults` and in `zapOptsDefault`. -/
def samplerOpt : ZapOption :=
  ZapOption.WrapCore (CoreWrapper.NewSamplerWithOptions timeSecond 100 100)

/-- The closure `f` of `addDefaults`: `ecfg.EncodeTime = o.TimeEncoder`. -/
def setEncodeTime (te : TimeEncoder) : EncoderConfigOption :=
  fun ecfg => { ecfg with EncodeTime := te }

/-- The closure `addDefaults` of `zapDefaultOpts`. -/
def addDefaults (o : Options) : Options :=
  let destWriter := match o.DestWriter with
    | none => Writer.Stderr
    | some w => w
  let newEncoder := match o.NewEncoder with
    | none => newJSONEncoder
    | some ne => ne
  let level := match o.Level with
    | none => NewAtomicLevelAt InfoLevel
    | some l => l
  let stacktraceLevel := match o.StacktraceLevel with
    | none => NewAtomicLevelAt ErrorLevel
    | some l => l
  let zapOpts := if !level.Enabled (-2) then o.ZapOpts ++ [samplerOpt] else o.ZapOpts
  let timeEncoder := match o.TimeEncoder with
    | none => TimeEncoder.RFC3339TimeEncoder
    | some te => te
  let f := setEncodeTime timeEncoder
  let encoderConfigOptions := [f] ++ o.EncoderConfigOptions
  let encoder := match o.Encoder with
    | none => newEncoder encoderConfigOptions
    | some e => some e
  let zapOpts := zapOpts ++ [ZapOption.AddStacktrace stacktraceLevel]
  { Development := o.Development
    Encoder := encoder
    EncoderConfigOptions := encoderConfigOptions
    NewEncoder := some newEncoder
    DestWriter := some destWriter
    Level := some level
    StacktraceLevel := some stacktraceLevel
    ZapOpts := zapOpts
    TimeEncoder := some timeEncoder }

/-- The loop `for _, opt := range opts { opt(o) }` on `o := &zap.Options{}`. -/
def applyOpts (opts : List Opts) : Options :=
  opts.foldl (fun o opt => opt o) Options.zero

/-- Function `zapDefaultOpts`. -/
def zapDefaultOpts (opts : List Opts) : Options :=
  addDefaults (applyOpts opts)

/-- Function `defaultLevel`. -/
def defaultLevel : LevelEnabler := NewAtomicLevelAt InfoLevel

/-- Function `defaultStacktraceLevel`. -/
def defaultStacktraceLevel : LevelEnabler := NewAtomicLevelAt ErrorLevel

/-- Function `zapConsoleOpts`. -/
def zapConsoleOpts (level stacktraceLevel : LevelEnabler) : Options :=
  let opts : Options :=
    { Options.zero with
      DestWriter := some Writer.Stderr
      Level := some level
      StacktraceLevel := some stacktraceLevel }
  zapDefaultOpts [UseFlagOptions opts]

/-- Function `zapFileOpts`. -/
def zapFileOpts (w : Writer) (level stacktraceLevel : LevelEnabler) : Options :=
  let opts : Options :=
    { Options.zero with
      DestWriter := some w
      Level := some level
      StacktraceLevel := some stacktraceLevel }
  zapDefaultOpts [UseFlagOptions opts]

/-- Function `zapOptsDefault`. -/
def zapOptsDefault (level stacktraceLevel : LevelEnabler) : List ZapOption :=
  let opts : List ZapOption := []
  let opts := if !level.Enabled (-2) then opts ++ [samplerOpt] else opts
  let opts := opts ++ [ZapOption.AddStacktrace stacktraceLevel]
  opts

/-! ## Records, cores and loggers of the logging library -/

/-- A log record `zapcore.Entry`: level, time (Unix nanoseconds), message, and
whether a captured stack trace is attached (`Stack` is non-empty). -/
structure Entry where
  Level : Level
  Time : Int
  Message : String
  Stack : Bool
deriving DecidableEq, Repr

/-- The counter of one message+level signature in a sampler: the end of the
current window and the number of records seen in it. -/
structure Counter where
  resetAt : Int
  counter : Nat
deriving DecidableEq, Repr

/-- Modelled from the spec: the window counter of the zap sampler is library
code, not under src. Spec §4.1: a fixed-window sampler; the count of a signature
restarts at 1 with the first record at or after the end of its window, which
opens a window of length `tick`. Returns the count of this record. -/
def Counter.IncCheckReset (c : Counter) (tn tick : Int) : Nat × Counter :=
  if c.resetAt > tn then (c.counter + 1, { c with counter := c.counter + 1 })
  else (1, { resetAt := tn + tick, counter := 1 })

/-- The counters of a sampler, one per distinct message+level signature. -/
abbrev Counters := Level → String → Counter

/-- The counters of a new sampler. -/
def Counters.empty : Counters := fun _ _ => { resetAt := 0, counter := 0 }

/-- Store the counter of one signature. -/
def Counters.set (cs : Counters) (lvl : Level) (msg : String) (c : Counter) : Counters :=
  fun l m => if l = lvl ∧ m = msg then c else cs l m

/-- Modelled from the spec: the decision of the zap sampler is library code, not
under src. Spec §4.1: the first `first` records of a window pass
unconditionally, then one in `thereafter`. True when the `n`-th record of the
window passes. -/
def samplerKeeps (first thereafter n : Nat) : Bool :=
  !(decide (n > first) && (thereafter == 0 || (n - first) % thereafter != 0))

/-- Modelled from the spec: the severities the zap sampler counts (spec §2:
records below a high-verbosity cutoff bypass sampling entirely); the library
counts the levels from debug to fatal. -/
def sampledLevel (lvl : Level) : Bool :=
  decide (DebugLevel ≤ lvl) && decide (lvl ≤ FatalLevel)

/-- A `zapcore.Core`: the no-op core, the core of one sink (`zapcore.NewCore`,
whose level enabler is `none` when a nil interface was passed), the fan-out
over several cores (built by `zapcore.NewTee`), and the sampler around a core
(built by `zapcore.NewSamplerWithOptions`), which owns its counters. -/
inductive Core where
  | NewNopCore
  | NewCore (enc : KubeAwareEncoder) (ws : WriteSyncer) (enab : Option LevelEnabler)
  | multiCore (cores : List Core)
  | sampler (core : Core) (tick : Int) (first thereafter : Nat) (counts : Counters)

/-- Library constructor `uzapcore.NewTee`. -/
def NewTee : List Core → Core
  | [] => Core.NewNopCore
  | [c] => c
  | cs => Core.multiCore cs

/-- Library constructor `uzapcore.NewSamplerWithOptions`, without options. -/
def NewSamplerWithOptions (core : Core) (tick : Int) (first thereafter : Nat) : Core :=
  Core.sampler core tick first thereafter Counters.empty

/-- The sink core that accepted a record: its encoder and its stream. -/
structure Target where
  enc : KubeAwareEncoder
  out : WriteSyncer
deriving DecidableEq, Repr

mutual
/-- Modelled from the spec: `Core.Enabled` of the zap cores is library code, not
under src. Spec §2: a sink core applies its level filter; a fan-out is enabled
when one of its cores is; a sampler is as enabled as the core it wraps. -/
def Core.Enabled : Core → Level → Bool
  | Core.NewNopCore, _ => false
  | Core.NewCore _ _ enab, lvl => enabledAt enab lvl
  | Core.multiCore cores, lvl => Core.anyEnabled cores lvl
  | Core.sampler core _ _ _ _, lvl => core.Enabled lvl
/-- Whether one core of a list is enabled. -/
def Core.anyEnabled : List Core → Level → Bool
  | [], _ => false
  | c :: cs, lvl => c.Enabled lvl || Core.anyEnabled cs lvl
end

mutual
/-- Modelled from the spec: `Core.Check` of the zap cores is library code, not
under src. Spec §2 and §4.4: a sink core accepts a record that passes its level
filter; a fan-out forwards the record to every core, in order; a sampler counts
a record of a sampled severity that the wrapped core is enabled for, drops it
or forwards it. Returns the sink cores that will write the record, and the core
with its counters updated. -/
def Core.Check : Core → Entry → List Target × Core
  | Core.NewNopCore, _ => ([], Core.NewNopCore)
  | Core.NewCore enc ws enab, ent =>
      (if enabledAt enab ent.Level then [⟨enc, ws⟩] else [], Core.NewCore enc ws enab)
  | Core.multiCore cores, ent =>
      ((Core.checkAll cores ent).1, Core.multiCore (Core.checkAll cores ent).2)
  | Core.sampler core tick first thereafter counts, ent =>
      if !core.Enabled ent.Level then
        ([], Core.sampler core tick first thereafter counts)
      else if sampledLevel ent.Level then
        let r := (counts ent.Level ent.Message).IncCheckReset ent.Time tick
        let counts2 := counts.set ent.Level ent.Message r.2
        if samplerKeeps first thereafter r.1 then
          ((core.Check ent).1, Core.sampler (core.Check ent).2 tick first thereafter counts2)
        else
          ([], Core.sampler core tick first thereafter counts2)
      else
        ((core.Check ent).1, Core.sampler (core.Check ent).2 tick first thereafter counts)
/-- The check of every core of a fan-out, in order. -/
def Core.checkAll : List Core → Entry → List Target × List Core
  | [], _ => ([], [])
  | c :: cs, ent =>
      ((c.Check ent).1 ++ (Core.checkAll cs ent).1, (c.Check ent).2 :: (Core.checkAll cs ent).2)
end

/-- Whether the sampler at the top of a core drops the record (the decision
`LogDropped`). -/
def Core.samplerDrops : Core → Entry → Bool
  | Core.sampler core tick first thereafter counts, ent =>
      core.Enabled ent.Level && sampledLevel ent.Level &&
        !samplerKeeps first thereafter ((counts ent.Level ent.Message).IncCheckReset ent.Time tick).1
  | _, _ => false

/-- A `uzap.Logger`: its core and the settings the decorators change. -/
structure Logger where
  core : Core
  development : Bool
  addCaller : Bool
  errorOutput : WriteSyncer
  addStack : LevelEnabler
  callerSkip : Nat

/-- Library constructor `uzap.New`, without options: internal errors go to the
locked standard error stream and no level gets a stack trace. -/
def New (core : Core) : Logger :=
  { core := core, development := false, addCaller := false,
    errorOutput := WriteSyncer.Lock (WriteSyncer.AddSync (some Writer.Stderr)),
    addStack := NewAtomicLevelAt (FatalLevel + 1), callerSkip := 0 }

/-- The function a core wrapper stands for. -/
def CoreWrapper.apply : CoreWrapper → Core → Core
  | CoreWrapper.NewSamplerWithOptions tick first thereafter, core =>
      ZapExample.NewSamplerWithOptions core tick first thereafter

/-- The effect of one decorator on a logger. -/
def ZapOption.apply : ZapOption → Logger → Logger
  | ZapOption.WrapCore f, log => { log with core := f.apply log.core }
  | ZapOption.AddStacktrace lvl, log => { log with addStack := lvl }
  | ZapOption.ErrorOutput w, log => { log with errorOutput := w }
  | ZapOption.AddCaller, log => { log with addCaller := true }
  | ZapOption.AddCallerSkip skip, log => { log with callerSkip := log.callerSkip + skip }
  | ZapOption.Development, log => { log with development := true }

/-- Library method `Logger.WithOptions`: the decorators are applied in order. -/
def Logger.WithOptions (log : Logger) (opts : List ZapOption) : Logger :=
  opts.foldl (fun l opt => opt.apply l) log

/-- One encoded record written to a sink. -/
structure Line where
  out : WriteSyncer
  enc : KubeAwareEncoder
  ent : Entry
deriving DecidableEq, Repr

/-- Modelled from the spec: the emission of one record by a zap logger is
library code, not under src. Spec §2 and §4.4: the record passes the level
filter and the sampler, a stack trace is attached when its level is at or above
the stack-trace threshold, and every accepting sink encodes and writes it.
Returns the lines written and the logger with its sampler counters updated. -/
def Logger.Log (log : Logger) (lvl : Level) (now : Int) (msg : String) : List Line × Logger :=
  if decide (lvl < DPanicLevel) && !log.core.Enabled lvl then ([], log)
  else
    let ent : Entry := { Level := lvl, Time := now, Message := msg, Stack := false }
    let ce := log.core.Check ent
    let written : Entry := if log.addStack.Enabled lvl then { ent with Stack := true } else ent
    (ce.1.map (fun t => { out := t.out, enc := t.enc, ent := written }), { log with core := ce.2 })

/-- The logger behind the `logr.Logger` facade. -/
structure LogrLogger where
  l : Logger

/-- Library constructor `zapr.NewLogger`. -/
def NewLogger (l : Logger) : LogrLogger :=
  { l := l.WithOptions [ZapOption.AddCallerSkip 1] }

/-! ## Core and logger construction -/

/-- Function `NewRawCore`: returns the core and the options with the appended
decorator. -/
def NewRawCore (o : Options) : Core × Options :=
  let sink := WriteSyncer.AddSync o.DestWriter
  let o := { o with ZapOpts := o.ZapOpts ++ [ZapOption.ErrorOutput sink] }
  (Core.NewCore { Encoder := o.Encoder, Verbose := o.Development } sink o.Level, o)

/-- Function `NewRaw`: returns the logger and the options with the appended
decorator. -/
def NewRaw (o : Options) : Logger × Options :=
  let sink := WriteSyncer.AddSync o.DestWriter
  let o := { o with ZapOpts := o.ZapOpts ++ [ZapOption.ErrorOutput sink] }
  let log := New (NewTee
    [Core.NewCore { Encoder := o.Encoder, Verbose := o.Development } sink o.Level])
  let log := log.WithOptions o.ZapOpts
  (log, o)

/-- Function `zapNew`. -/
def zapNew (w : Writer) : LogrLogger :=
  let zapOpts := zapOptsDefault defaultLevel defaultStacktraceLevel
  let consoleCore := (NewRawCore (zapConsoleOpts defaultLevel defaultStacktraceLevel)).1
  let fileCore := (NewRawCore (zapFileOpts w defaultLevel defaultStacktraceLevel)).1
  let log := New (NewTee [consoleCore, fileCore])
  let log := log.WithOptions zapOpts
  NewLogger log

/-! ## Properties as the specification words them -/

/-- The claim "every field that was set before defaulting has the same value
afterwards", for the options before and after defaulting; a slice is set when
it is not empty. -/
def keepsSetFields (before after : Options) : Prop :=
  after.Development = before.Development ∧
  (∀ e, before.Encoder = some e → after.Encoder = some e) ∧
  (before.EncoderConfigOptions ≠ [] → after.EncoderConfigOptions = before.EncoderConfigOptions) ∧
  (∀ ne, before.NewEncoder = some ne → after.NewEncoder = some ne) ∧
  (∀ w, before.DestWriter = some w → after.DestWriter = some w) ∧
  (∀ l, before.Level = some l → after.Level = some l) ∧
  (∀ l, before.StacktraceLevel = some l → after.StacktraceLevel = some l) ∧
  (before.ZapOpts ≠ [] → after.ZapOpts = before.ZapOpts) ∧
  (∀ te, before.TimeEncoder = some te → after.TimeEncoder = some te)

/-- The claim "no field is unset (nil)". -/
def fullyPopulated (o : Options) : Prop :=
  o.Encoder ≠ none ∧ o.EncoderConfigOptions ≠ [] ∧ o.NewEncoder ≠ none ∧
  o.DestWriter ≠ none ∧ o.Level ≠ none ∧ o.StacktraceLevel ≠ none ∧
  o.ZapOpts ≠ [] ∧ o.TimeEncoder ≠ none

/-! ## Runs of records -/

/-- The records of a burst: one level, one message, the given times. -/
def burst (lvl : Level) (msg : String) (times : List Int) : List Entry :=
  times.map (fun t => { Level := lvl, Time := t, Message := msg, Stack := false })

/-- Send records through a core in order: for each record, whether the sampler
at the top of the core lets it through. -/
def Core.runKept : Core → List Entry → List Bool
  | _, [] => []
  | c, e :: es => (!c.samplerDrops e) :: Core.runKept (c.Check e).2 es

/-- The states a logger goes through by emitting records. -/
inductive Logger.After (l0 : Logger) : Logger → Prop where
  | start : Logger.After l0 l0
  | emit (l : Logger) (lvl : Level) (now : Int) (msg : String) :
      Logger.After l0 l → Logger.After l0 (l.Log lvl now msg).2

/-- The encoder of both sinks of `zapNew`: the production JSON encoder with the
RFC3339 time encoder, wrapped for verbosity levels. -/
def zapNewEncoder : KubeAwareEncoder :=
  { Encoder := some (Encoder.NewJSONEncoder
      { NewProductionEncoderConfig with EncodeTime := TimeEncoder.RFC3339TimeEncoder }),
    Verbose := false }

/-- The fan-out of `zapNew` over the console sink and the file sink `w`. -/
def zapNewTee (w : Writer) : Core :=
  Core.multiCore
    [Core.NewCore zapNewEncoder (WriteSyncer.AddSync (some Writer.Stderr))
        (some (NewAtomicLevelAt InfoLevel)),
     Core.NewCore zapNewEncoder (WriteSyncer.AddSync (some w))
        (some (NewAtomicLevelAt InfoLevel))]

/-- The logger of `zapNew w` when its sampler holds the counters `counts`. -/
def zapNewWith (w : Writer) (counts : Counters) : Logger :=
  { core := Core.sampler (zapNewTee w) timeSecond 100 100 counts,
    development := false, addCaller := false,
    errorOutput := WriteSyncer.Lock (WriteSyncer.AddSync (some Writer.Stderr)),
    addStack := NewAtomicLevelAt ErrorLevel, callerSkip := 1 }

/-! ## Shared lemmas -/

theorem applyOpts_single (o : Options) : applyOpts [UseFlagOptions o] = o := rfl

theorem addDefaults_ZapOpts (o : Options) (lvl st : LevelEnabler)
    (hl : (addDefaults o).Level = some lvl) (hs : (addDefaults o).StacktraceLevel = some st) :
    (addDefaults o).ZapOpts =
      o.ZapOpts ++ (if lvl.Enabled (-2) then [] else [samplerOpt]) ++ [ZapOption.AddStacktrace st] := by
  simp only [addDefaults, Option.some.injEq] at hl hs ⊢
  subst hl hs
  split <;> simp_all

theorem addDefaults_Level_isSome (o : Options) : ∃ lvl, (addDefaults o).Level = some lvl :=
  ⟨_, rfl⟩

theorem addDefaults_StacktraceLevel_isSome (o : Options) :
    ∃ st, (addDefaults o).StacktraceLevel = some st :=
  ⟨_, rfl⟩

/-! ## C1: defaulting and the caller's fields -/

/-- C1, as stated, fails: with a caller decorator list `[AddCaller]` and a caller
encoder factory that returns nil, defaulting changes the set field `ZapOpts`
(the sampler and the stack-trace decorator are appended), and the field
`Encoder` is still nil afterwards. -/
theorem zapDefaultOpts_changes_set_list_and_may_leave_encoder_nil :
    ¬ keepsSetFields
        (applyOpts [fun o => { o with ZapOpts := [ZapOption.AddCaller],
                                      NewEncoder := some (fun _ => none) }])
        (zapDefaultOpts [fun o => { o with ZapOpts := [ZapOption.AddCaller],
                                           NewEncoder := some (fun _ => none) }]) ∧
    ¬ fullyPopulated
        (zapDefaultOpts [fun o => { o with ZapOpts := [ZapOption.AddCaller],
                                           NewEncoder := some (fun _ => none) }]) := by
  constructor
  · intro h
    exact absurd (h.2.2.2.2.2.2.2.1 (by decide)) (by decide)
  · intro h
    exact h.1 rfl

/-- C1, amended: for the options `before` that the caller option functions
produce, defaulting keeps `Development` and every set field among `Encoder`,
`NewEncoder`, `DestWriter`, `Level`, `StacktraceLevel` and `TimeEncoder`; it
extends the two list fields, keeping the caller elements in their order
(`EncoderConfigOptions` gets one option in front, `ZapOpts` gets a non-empty
list of decorators behind); afterwards `NewEncoder`, `DestWriter`, `Level`,
`StacktraceLevel` and `TimeEncoder` are set and both lists are not empty; and
`Encoder` is what the caller gave, else what the encoder factory in effect
returns on the extended option list, which is an encoder with the default
factory. -/
theorem zapDefaultOpts_keeps_set_fields_extends_lists (opts : List Opts) :
    (zapDefaultOpts opts).Development = (applyOpts opts).Development ∧
    (∀ e, (applyOpts opts).Encoder = some e → (zapDefaultOpts opts).Encoder = some e) ∧
    (∀ ne, (applyOpts opts).NewEncoder = some ne → (zapDefaultOpts opts).NewEncoder = some ne) ∧
    (∀ w, (applyOpts opts).DestWriter = some w → (zapDefaultOpts opts).DestWriter = some w) ∧
    (∀ l, (applyOpts opts).Level = some l → (zapDefaultOpts opts).Level = some l) ∧
    (∀ l, (applyOpts opts).StacktraceLevel = some l →
      (zapDefaultOpts opts).StacktraceLevel = some l) ∧
    (∀ te, (applyOpts opts).TimeEncoder = some te → (zapDefaultOpts opts).TimeEncoder = some te) ∧
    (∃ f, (zapDefaultOpts opts).EncoderConfigOptions = f :: (applyOpts opts).EncoderConfigOptions) ∧
    (∃ added, added ≠ [] ∧ (zapDefaultOpts opts).ZapOpts = (applyOpts opts).ZapOpts ++ added) ∧
    (zapDefaultOpts opts).NewEncoder ≠ none ∧
    (zapDefaultOpts opts).DestWriter ≠ none ∧
    (zapDefaultOpts opts).Level ≠ none ∧
    (zapDefaultOpts opts).StacktraceLevel ≠ none ∧
    (zapDefaultOpts opts).TimeEncoder ≠ none ∧
    (zapDefaultOpts opts).EncoderConfigOptions ≠ [] ∧
    (zapDefaultOpts opts).ZapOpts ≠ [] ∧
    (∀ ne, (applyOpts opts).Encoder = none → (zapDefaultOpts opts).NewEncoder = some ne →
      (zapDefaultOpts opts).Encoder = ne (zapDefaultOpts opts).EncoderConfigOptions) ∧
    ((applyOpts opts).NewEncoder = none → (zapDefaultOpts opts).Encoder ≠ none) := by
  obtain ⟨lvl, hl⟩ := addDefaults_Level_isSome (applyOpts opts)
  obtain ⟨st, hs⟩ := addDefaults_StacktraceLevel_isSome (applyOpts opts)
  have hz := addDefaults_ZapOpts (applyOpts opts) lvl st hl hs
  refine ⟨rfl, ?_, ?_, ?_, ?_, ?_, ?_, ⟨_, rfl⟩, ?_, ?_, ?_, ?_, ?_, ?_, ?_, ?_, ?_, ?_⟩
  · intro e h; simp [zapDefaultOpts, addDefaults, h]
  · intro ne h; simp [zapDefaultOpts, addDefaults, h]
  · intro w h; simp [zapDefaultOpts, addDefaults, h]
  · intro l h; simp [zapDefaultOpts, addDefaults, h]
  · intro l h; simp [zapDefaultOpts, addDefaults, h]
  · intro te h; simp [zapDefaultOpts, addDefaults, h]
  · refine ⟨(if lvl.Enabled (-2) then [] else [samplerOpt]) ++ [ZapOption.AddStacktrace st],
      by simp, ?_⟩
    rw [zapDefaultOpts, hz, List.append_assoc]
  · simp [zapDefaultOpts, addDefaults]
  · simp [zapDefaultOpts, addDefaults]
  · simp [zapDefaultOpts, addDefaults]
  · simp [zapDefaultOpts, addDefaults]
  · simp [zapDefaultOpts, addDefaults]
  · simp [zapDefaultOpts, addDefaults]
  · rw [zapDefaultOpts, hz]; simp
  · intro ne h hne
    simp only [zapDefaultOpts, addDefaults, Option.some.injEq] at hne ⊢
    subst hne
    simp [h]
  · intro h
    cases he : (applyOpts opts).Encoder <;>
      simp [zapDefaultOpts, addDefaults, h, he, newJSONEncoder]

/-! ## C2: the threshold that switches sampling off -/

/-- C2, as stated, fails at the threshold -1 (debug): the threshold is at most
-1, and both `zapDefaultOpts` and `zapOptsDefault` install the sampler. -/
theorem sampler_installed_at_debug_threshold :
    (NewAtomicLevelAt DebugLevel).threshold ≤ -1 ∧
    (zapDefaultOpts [UseFlagOptions
        { Options.zero with Level := some (NewAtomicLevelAt DebugLevel) }]).ZapOpts =
      [samplerOpt, ZapOption.AddStacktrace (NewAtomicLevelAt ErrorLevel)] ∧
    zapOptsDefault (NewAtomicLevelAt DebugLevel) (NewAtomicLevelAt ErrorLevel) =
      [samplerOpt, ZapOption.AddStacktrace (NewAtomicLevelAt ErrorLevel)] := by
  decide

/-- C2, amended: with the emit threshold `lvl` and the stack-trace threshold
`st` held by the options at defaulting time, `zapDefaultOpts` appends the sampler
decorator exactly when the threshold is at least -1 (info and debug), and
appends only the stack-trace decorator when it is at most -2; the same holds for
`zapOptsDefault`. -/
theorem sampler_installed_iff_threshold_ge_debug (opts : List Opts) (lvl st : LevelEnabler)
    (hl : (zapDefaultOpts opts).Level = some lvl)
    (hs : (zapDefaultOpts opts).StacktraceLevel = some st) :
    (-1 ≤ lvl.threshold →
      (zapDefaultOpts opts).ZapOpts =
          (applyOpts opts).ZapOpts ++ [samplerOpt, ZapOption.AddStacktrace st] ∧
        zapOptsDefault lvl st = [samplerOpt, ZapOption.AddStacktrace st]) ∧
    (lvl.threshold ≤ -2 →
      (zapDefaultOpts opts).ZapOpts = (applyOpts opts).ZapOpts ++ [ZapOption.AddStacktrace st] ∧
        zapOptsDefault lvl st = [ZapOption.AddStacktrace st]) := by
  have hz := addDefaults_ZapOpts (applyOpts opts) lvl st hl hs
  constructor
  · intro h
    have hE : lvl.Enabled (-2) = false := by
      simp only [LevelEnabler.Enabled, decide_eq_false_iff_not, not_le]
      exact lt_of_lt_of_le (by decide) h
    constructor
    · rw [zapDefaultOpts, hz, hE]; simp
    · simp [zapOptsDefault, hE]
  · intro h
    have hE : lvl.Enabled (-2) = true := by
      simp only [LevelEnabler.Enabled, decide_eq_true_eq]
      exact h
    constructor
    · rw [zapDefaultOpts, hz, hE]; simp
    · simp [zapOptsDefault, hE]

/-- Witness of C2 amended: the caller sets the threshold -2 and the decorator
`AddCaller`; the stack-trace decorator alone is appended. -/
theorem sampler_installed_iff_threshold_ge_debug_witness :
    (zapDefaultOpts [UseFlagOptions { Options.zero with
        Level := some (NewAtomicLevelAt (-2)), ZapOpts := [ZapOption.AddCaller] }]).ZapOpts =
      [ZapOption.AddCaller, ZapOption.AddStacktrace (NewAtomicLevelAt ErrorLevel)] ∧
    zapOptsDefault (NewAtomicLevelAt (-2)) (NewAtomicLevelAt ErrorLevel) =
      [ZapOption.AddStacktrace (NewAtomicLevelAt ErrorLevel)] :=
  (sampler_installed_iff_threshold_ge_debug
    [UseFlagOptions { Options.zero with
        Level := some (NewAtomicLevelAt (-2)), ZapOpts := [ZapOption.AddCaller] }]
    (NewAtomicLevelAt (-2)) (NewAtomicLevelAt ErrorLevel) rfl rfl).2 (by decide)

/-! ## C3: defaulting with no caller option -/

/-- C3: `zapDefaultOpts` with no option function returns the destination
standard error, the emit threshold info, the stack-trace threshold error, the
RFC3339 time encoder, the production JSON encoder factory (and the encoder it
builds), and a decorator list that contains the sampler. -/
theorem zapDefaultOpts_nil :
    (zapDefaultOpts []).DestWriter = some Writer.Stderr ∧
    (zapDefaultOpts []).Level = some (NewAtomicLevelAt InfoLevel) ∧
    (zapDefaultOpts []).StacktraceLevel = some (NewAtomicLevelAt ErrorLevel) ∧
    (zapDefaultOpts []).TimeEncoder = some TimeEncoder.RFC3339TimeEncoder ∧
    (zapDefaultOpts []).NewEncoder = some newJSONEncoder ∧
    (zapDefaultOpts []).Encoder = some (Encoder.NewJSONEncoder
      { NewProductionEncoderConfig with EncodeTime := TimeEncoder.RFC3339TimeEncoder }) ∧
    samplerOpt ∈ (zapDefaultOpts []).ZapOpts ∧
    (zapDefaultOpts []).ZapOpts =
      [samplerOpt, ZapOption.AddStacktrace (NewAtomicLevelAt ErrorLevel)] := by
  refine ⟨rfl, rfl, rfl, rfl, rfl, rfl, ?_, ?_⟩ <;> decide

/-! ## C4: the time encoder option goes first -/

theorem foldl_keeps_EncodeTime (L : List EncoderConfigOption)
    (hL : ∀ h ∈ L, ∀ cfg : EncoderConfig, (h cfg).EncodeTime = cfg.EncodeTime)
    (cfg : EncoderConfig) :
    (L.foldl (fun cfg opt => opt cfg) cfg).EncodeTime = cfg.EncodeTime := by
  induction L generalizing cfg with
  | nil => rfl
  | cons h t ih =>
    rw [List.foldl_cons, ih (fun k hk => hL k (List.mem_cons_of_mem _ hk)),
      hL h (List.mem_cons_self _ _)]

/-- C4: after `zapDefaultOpts` the list `EncoderConfigOptions` is `f :: L`, with
`L` the caller list and `f` the option that sets the time encoder to the one of
the options, RFC3339 when the caller gave none. When no encoder was given, the
encoder is what the factory returns on `f :: L`; with the default factory and an
option `g` of `L` that sets the time encoder to `te` (the options behind `g` in
`L` leave the time encoder alone), the JSON encoder is built from a
configuration whose time encoder is `te`. -/
theorem zapDefaultOpts_EncoderConfigOptions (opts : List Opts) :
    (zapDefaultOpts opts).TimeEncoder =
      some ((applyOpts opts).TimeEncoder.getD TimeEncoder.RFC3339TimeEncoder) ∧
    (zapDefaultOpts opts).EncoderConfigOptions =
      setEncodeTime ((applyOpts opts).TimeEncoder.getD TimeEncoder.RFC3339TimeEncoder) ::
        (applyOpts opts).EncoderConfigOptions ∧
    (∀ ne, (applyOpts opts).Encoder = none → (applyOpts opts).NewEncoder = some ne →
      (zapDefaultOpts opts).Encoder = ne (zapDefaultOpts opts).EncoderConfigOptions) ∧
    (∀ (te : TimeEncoder) (g : EncoderConfigOption) (L1 L2 : List EncoderConfigOption),
      (applyOpts opts).Encoder = none → (applyOpts opts).NewEncoder = none →
      (applyOpts opts).EncoderConfigOptions = L1 ++ g :: L2 →
      (∀ cfg, (g cfg).EncodeTime = te) →
      (∀ h ∈ L2, ∀ cfg : EncoderConfig, (h cfg).EncodeTime = cfg.EncodeTime) →
      ∃ cfg, (zapDefaultOpts opts).Encoder = some (Encoder.NewJSONEncoder cfg) ∧
        cfg.EncodeTime = te) := by
  refine ⟨?_, ?_, ?_, ?_⟩
  · cases h : (applyOpts opts).TimeEncoder <;> simp [zapDefaultOpts, addDefaults, h]
  · cases h : (applyOpts opts).TimeEncoder <;> simp [zapDefaultOpts, addDefaults, h]
  · intro ne hE hN
    simp [zapDefaultOpts, addDefaults, hE, hN]
  · intro te g L1 L2 hE hN hL hg hL2
    refine ⟨(zapDefaultOpts opts).EncoderConfigOptions.foldl (fun cfg opt => opt cfg)
      NewProductionEncoderConfig, ?_, ?_⟩
    · simp only [zapDefaultOpts, addDefaults, hE, hN, newJSONEncoder]
    · simp only [zapDefaultOpts, addDefaults]
      rw [hL, List.singleton_append, List.foldl_cons, List.foldl_append, List.foldl_cons,
        foldl_keeps_EncodeTime L2 hL2, hg]

/-- Witness of C4: the caller gives the option list `[g]` with `g` setting the
ISO8601 time encoder; the encoder built by the default factory carries ISO8601,
not RFC3339. -/
theorem zapDefaultOpts_EncoderConfigOptions_witness :
    ∃ cfg, (zapDefaultOpts [fun o => { o with EncoderConfigOptions :=
        [setEncodeTime TimeEncoder.ISO8601TimeEncoder] }]).Encoder =
          some (Encoder.NewJSONEncoder cfg) ∧
      cfg.EncodeTime = TimeEncoder.ISO8601TimeEncoder :=
  (zapDefaultOpts_EncoderConfigOptions [fun o => { o with EncoderConfigOptions :=
      [setEncodeTime TimeEncoder.ISO8601TimeEncoder] }]).2.2.2
    TimeEncoder.ISO8601TimeEncoder (setEncodeTime TimeEncoder.ISO8601TimeEncoder) [] []
    rfl rfl rfl (fun _ => rfl) (fun _ h => absurd h (List.not_mem_nil _))

/-! ## C9: the order of the decorators -/

theorem NewRawCore_ZapOpts (o : Options) :
    (NewRawCore o).2.ZapOpts = o.ZapOpts ++ [ZapOption.ErrorOutput (WriteSyncer.AddSync o.DestWriter)] :=
  rfl

theorem NewRaw_ZapOpts (o : Options) :
    (NewRaw o).2.ZapOpts = o.ZapOpts ++ [ZapOption.ErrorOutput (WriteSyncer.AddSync o.DestWriter)] :=
  rfl

/-- C9: after `zapDefaultOpts` the list `ZapOpts` is the caller list `Z`, then
the sampler decorator exactly when sampling is installed (the threshold is not
enabled at level -2), then the stack-trace decorator bound to the stack-trace
threshold of the options, which is thus always present, last, and behind the
sampler; `NewRawCore` and `NewRaw` each append exactly one element, the
error-output redirection to the wrapped destination, so that with sampling the
appended decorators are sampler, stack-trace, error-output in this order. -/
theorem zapDefaultOpts_ZapOpts_order (opts : List Opts) :
    ∃ lvl st, (zapDefaultOpts opts).Level = some lvl ∧
      (zapDefaultOpts opts).StacktraceLevel = some st ∧
      (∀ l, (applyOpts opts).StacktraceLevel = some l → st = l) ∧
      (zapDefaultOpts opts).ZapOpts =
        (applyOpts opts).ZapOpts ++ (if lvl.Enabled (-2) then [] else [samplerOpt]) ++
          [ZapOption.AddStacktrace st] ∧
      (zapDefaultOpts opts).ZapOpts.getLast? = some (ZapOption.AddStacktrace st) ∧
      (NewRawCore (zapDefaultOpts opts)).2.ZapOpts =
        (zapDefaultOpts opts).ZapOpts ++
          [ZapOption.ErrorOutput (WriteSyncer.AddSync (zapDefaultOpts opts).DestWriter)] ∧
      (NewRaw (zapDefaultOpts opts)).2.ZapOpts =
        (zapDefaultOpts opts).ZapOpts ++
          [ZapOption.ErrorOutput (WriteSyncer.AddSync (zapDefaultOpts opts).DestWriter)] ∧
      (lvl.Enabled (-2) = false →
        (NewRawCore (zapDefaultOpts opts)).2.ZapOpts =
          (applyOpts opts).ZapOpts ++
            [samplerOpt, ZapOption.AddStacktrace st,
              ZapOption.ErrorOutput (WriteSyncer.AddSync (zapDefaultOpts opts).DestWriter)]) := by
  obtain ⟨lvl, hl⟩ := addDefaults_Level_isSome (applyOpts opts)
  obtain ⟨st, hs⟩ := addDefaults_StacktraceLevel_isSome (applyOpts opts)
  have hz := addDefaults_ZapOpts (applyOpts opts) lvl st hl hs
  refine ⟨lvl, st, hl, hs, ?_, hz, ?_, NewRawCore_ZapOpts _, NewRaw_ZapOpts _, ?_⟩
  · intro l h
    simp only [addDefaults, h, Option.some.injEq] at hs
    exact hs.symm
  · rw [zapDefaultOpts, hz]; simp
  · intro h
    rw [NewRawCore_ZapOpts, zapDefaultOpts, hz, h]; simp

/-- Witness of C9: with no caller option the decorators after `NewRawCore` are
sampler, stack-trace, error-output. -/
theorem zapDefaultOpts_ZapOpts_order_witness :
    (NewRawCore (zapDefaultOpts [])).2.ZapOpts =
      [samplerOpt, ZapOption.AddStacktrace (NewAtomicLevelAt ErrorLevel),
        ZapOption.ErrorOutput (WriteSyncer.AddSync (some Writer.Stderr))] := by
  obtain ⟨lvl, st, hl, hs, -, -, -, -, -, h⟩ := zapDefaultOpts_ZapOpts_order []
  have hl2 : lvl = NewAtomicLevelAt InfoLevel := (Option.some.inj hl).symm
  have hs2 : st = NewAtomicLevelAt ErrorLevel := (Option.some.inj hs).symm
  subst hl2 hs2
  exact h (by decide)

/-! ## C10: the top-level decorator list -/

/-- C10: for every emit threshold and stack-trace threshold, `zapOptsDefault` is
the list of decorators that `zapDefaultOpts` appends to the list `ZapOpts` of
options holding these thresholds (to the empty list in particular); and in
`zapNew` the thresholds handed to `zapOptsDefault` are those of the console
sink options, whose decorator list is the top-level list. The thresholds are
compared by the value they hold. -/
theorem zapOptsDefault_eq_appended (level stacktraceLevel : LevelEnabler) (o : Options)
    (w : Writer) :
    (zapDefaultOpts [UseFlagOptions
        { o with Level := some level, StacktraceLevel := some stacktraceLevel }]).ZapOpts =
      o.ZapOpts ++ zapOptsDefault level stacktraceLevel ∧
    (zapDefaultOpts [UseFlagOptions
        { Options.zero with Level := some level, StacktraceLevel := some stacktraceLevel }]).ZapOpts =
      zapOptsDefault level stacktraceLevel ∧
    (zapConsoleOpts defaultLevel defaultStacktraceLevel).Level = some defaultLevel ∧
    (zapConsoleOpts defaultLevel defaultStacktraceLevel).StacktraceLevel =
      some defaultStacktraceLevel ∧
    (zapConsoleOpts defaultLevel defaultStacktraceLevel).ZapOpts =
      zapOptsDefault defaultLevel defaultStacktraceLevel ∧
    zapNew w = NewLogger ((New (NewTee
        [(NewRawCore (zapConsoleOpts defaultLevel defaultStacktraceLevel)).1,
         (NewRawCore (zapFileOpts w defaultLevel defaultStacktraceLevel)).1])).WithOptions
      (zapOptsDefault defaultLevel defaultStacktraceLevel)) := by
  have key : ∀ o : Options, (zapDefaultOpts [UseFlagOptions
        { o with Level := some level, StacktraceLevel := some stacktraceLevel }]).ZapOpts =
      o.ZapOpts ++ zapOptsDefault level stacktraceLevel := by
    intro o
    rw [zapDefaultOpts, applyOpts_single,
      addDefaults_ZapOpts { o with Level := some level, StacktraceLevel := some stacktraceLevel }
        level stacktraceLevel rfl rfl]
    cases h : level.Enabled (-2) <;> simp [zapOptsDefault, h]
  refine ⟨key o, ?_, rfl, rfl, ?_, rfl⟩
  · simpa [Options.zero] using key Options.zero
  · decide

/-! ## The logger of zapNew -/

theorem zapNew_l (w : Writer) : (zapNew w).l = zapNewWith w Counters.empty := rfl

theorem zapNewTee_Enabled (w : Writer) (lvl : Level) :
    (zapNewTee w).Enabled lvl = decide (InfoLevel ≤ lvl) := by
  simp [zapNewTee, Core.Enabled, Core.anyEnabled, enabledAt, LevelEnabler.Enabled,
    NewAtomicLevelAt]

theorem zapNewTee_Check (w : Writer) (ent : Entry) :
    (zapNewTee w).Check ent =
      (if InfoLevel ≤ ent.Level then
          [⟨zapNewEncoder, WriteSyncer.AddSync (some Writer.Stderr)⟩,
           ⟨zapNewEncoder, WriteSyncer.AddSync (some w)⟩]
        else [], zapNewTee w) := by
  by_cases h : InfoLevel ≤ ent.Level <;>
    simp [zapNewTee, Core.Check, Core.checkAll, enabledAt, LevelEnabler.Enabled,
      NewAtomicLevelAt, h]

theorem sampler_Enabled (inner : Core) (tick : Int) (first thereafter : Nat) (counts : Counters)
    (lvl : Level) : (Core.sampler inner tick first thereafter counts).Enabled lvl = inner.Enabled lvl := by
  rw [Core.Enabled]

theorem sampler_Check (inner : Core) (tick : Int) (first thereafter : Nat) (counts : Counters)
    (ent : Entry) :
    (Core.sampler inner tick first thereafter counts).Check ent =
      if !inner.Enabled ent.Level then
        ([], Core.sampler inner tick first thereafter counts)
      else if sampledLevel ent.Level then
        if samplerKeeps first thereafter
            ((counts ent.Level ent.Message).IncCheckReset ent.Time tick).1 then
          ((inner.Check ent).1, Core.sampler (inner.Check ent).2 tick first thereafter
            (counts.set ent.Level ent.Message
              ((counts ent.Level ent.Message).IncCheckReset ent.Time tick).2))
        else
          ([], Core.sampler inner tick first thereafter
            (counts.set ent.Level ent.Message
              ((counts ent.Level ent.Message).IncCheckReset ent.Time tick).2))
      else
        ((inner.Check ent).1, Core.sampler (inner.Check ent).2 tick first thereafter counts) := by
  rw [Core.Check]

theorem sampler_samplerDrops (inner : Core) (tick : Int) (first thereafter : Nat)
    (counts : Counters) (ent : Entry) :
    (Core.sampler inner tick first thereafter counts).samplerDrops ent =
      (inner.Enabled ent.Level && sampledLevel ent.Level &&
        !samplerKeeps first thereafter
          ((counts ent.Level ent.Message).IncCheckReset ent.Time tick).1) := rfl

theorem zapNewWith_Log_state (w : Writer) (counts : Counters) (lvl : Level) (now : Int)
    (msg : String) : ∃ counts2, ((zapNewWith w counts).Log lvl now msg).2 = zapNewWith w counts2 := by
  unfold Logger.Log
  split
  · exact ⟨counts, rfl⟩
  · simp only [zapNewWith, sampler_Check, zapNewTee_Check]
    split
    · exact ⟨counts, rfl⟩
    · split
      · split
        · exact ⟨_, rfl⟩
        · exact ⟨_, rfl⟩
      · exact ⟨counts, rfl⟩

theorem zapNewWith_Log_lines (w : Writer) (counts : Counters) (lvl : Level) (now : Int)
    (msg : String) :
    ((zapNewWith w counts).Log lvl now msg).1 =
      if InfoLevel ≤ lvl ∧
          (zapNewWith w counts).core.samplerDrops
            { Level := lvl, Time := now, Message := msg, Stack := false } = false then
        [{ out := WriteSyncer.AddSync (some Writer.Stderr), enc := zapNewEncoder,
           ent := { Level := lvl, Time := now, Message := msg, Stack := decide (ErrorLevel ≤ lvl) } },
         { out := WriteSyncer.AddSync (some w), enc := zapNewEncoder,
           ent := { Level := lvl, Time := now, Message := msg, Stack := decide (ErrorLevel ≤ lvl) } }]
      else [] := by
  simp only [Logger.Log, zapNewWith, sampler_Check, sampler_samplerDrops, sampler_Enabled,
    zapNewTee_Check, zapNewTee_Enabled, LevelEnabler.Enabled, NewAtomicLevelAt]
  by_cases hi : InfoLevel ≤ lvl
  · by_cases hs : sampledLevel lvl = true
    · by_cases hk : samplerKeeps 100 100
          ((counts lvl msg).IncCheckReset now timeSecond).1 = true
      · by_cases he : ErrorLevel ≤ lvl <;> simp [hi, hs, hk, he]
      · by_cases he : ErrorLevel ≤ lvl <;> simp [hi, hs, hk, he]
    · by_cases he : ErrorLevel ≤ lvl <;> simp [hi, hs, he]
  · have hd : lvl < DPanicLevel := lt_of_lt_of_le (not_le.mp hi) (by decide)
    simp [hi, hd]

theorem zapNew_After (w : Writer) (log : Logger) (h : (zapNew w).l.After log) :
    ∃ counts, log = zapNewWith w counts := by
  induction h with
  | start => exact ⟨Counters.empty, zapNew_l w⟩
  | emit l lvl now msg _ ih =>
    obtain ⟨counts, rfl⟩ := ih
    exact zapNewWith_Log_state w counts lvl now msg

/-! ## C6: the two sinks -/

/-- C6: `zapNew w` builds a sampler over a fan-out of exactly two sink cores, the
first on standard error, the second on `w`, each with the emit threshold info;
and in every state the logger reaches, a record that the sampler does not drop is
written once to the console sink and once to the file sink when its level is at
least info, and to neither sink otherwise. -/
theorem zapNew_two_sinks (w : Writer) (log : Logger) (h : (zapNew w).l.After log)
    (lvl : Level) (now : Int) (msg : String)
    (hkeep : log.core.samplerDrops
      { Level := lvl, Time := now, Message := msg, Stack := false } = false) :
    (zapNew w).l.core =
      Core.sampler
        (Core.multiCore
          [Core.NewCore zapNewEncoder (WriteSyncer.AddSync (some Writer.Stderr))
              (some (NewAtomicLevelAt InfoLevel)),
           Core.NewCore zapNewEncoder (WriteSyncer.AddSync (some w))
              (some (NewAtomicLevelAt InfoLevel))])
        timeSecond 100 100 Counters.empty ∧
    (log.Log lvl now msg).1.map Line.out =
      (if InfoLevel ≤ lvl then
        [WriteSyncer.AddSync (some Writer.Stderr), WriteSyncer.AddSync (some w)]
      else []) := by
  obtain ⟨counts, rfl⟩ := zapNew_After w log h
  refine ⟨rfl, ?_⟩
  rw [zapNewWith_Log_lines]
  by_cases hi : InfoLevel ≤ lvl <;> simp [hi, hkeep]

/-- Witness of C6: the first record of the logger of `zapNew (File 3)` is
written to both sinks at the error level and to neither at the debug level. -/
theorem zapNew_two_sinks_witness :
    (((zapNew (Writer.File 3)).l.Log ErrorLevel 0 "failed").1.map Line.out =
      [WriteSyncer.AddSync (some Writer.Stderr), WriteSyncer.AddSync (some (Writer.File 3))]) ∧
    (((zapNew (Writer.File 3)).l.Log DebugLevel 0 "details").1.map Line.out = []) :=
  ⟨(zapNew_two_sinks (Writer.File 3) _ Logger.After.start ErrorLevel 0 "failed" rfl).2,
   (zapNew_two_sinks (Writer.File 3) _ Logger.After.start DebugLevel 0 "details" rfl).2⟩

/-! ## C7: the stack trace -/

/-- C7: in every state the logger of `zapNew w` reaches, the stack-trace
threshold is error, and every line written for a record carries a stack trace
exactly when the level of the record is at least error; a record at or above
info that the sampler does not drop is written to the console sink and to the
file sink with the same stack-trace flag. -/
theorem zapNew_stack_trace (w : Writer) (log : Logger) (h : (zapNew w).l.After log)
    (lvl : Level) (now : Int) (msg : String) :
    log.addStack = defaultStacktraceLevel ∧
    (∀ line ∈ (log.Log lvl now msg).1,
      line.ent.Level = lvl ∧ (lvl < ErrorLevel → line.ent.Stack = false) ∧
        (ErrorLevel ≤ lvl → line.ent.Stack = true)) ∧
    (InfoLevel ≤ lvl →
      log.core.samplerDrops { Level := lvl, Time := now, Message := msg, Stack := false } = false →
      (log.Log lvl now msg).1.map (fun line => (line.out, line.ent.Stack)) =
        [(WriteSyncer.AddSync (some Writer.Stderr), decide (ErrorLevel ≤ lvl)),
         (WriteSyncer.AddSync (some w), decide (ErrorLevel ≤ lvl))]) := by
  obtain ⟨counts, rfl⟩ := zapNew_After w log h
  refine ⟨rfl, ?_, ?_⟩
  · intro line hline
    rw [zapNewWith_Log_lines] at hline
    split at hline
    · simp only [List.mem_cons, List.mem_singleton, List.not_mem_nil, or_false] at hline
      rcases hline with rfl | rfl
      · exact ⟨rfl, fun hlt => decide_eq_false (not_le.mpr hlt), fun hle => decide_eq_true hle⟩
      · exact ⟨rfl, fun hlt => decide_eq_false (not_le.mpr hlt), fun hle => decide_eq_true hle⟩
    · exact absurd hline (List.not_mem_nil _)
  · intro hi hkeep
    rw [zapNewWith_Log_lines, if_pos ⟨hi, hkeep⟩]
    rfl

/-- Witness of C7: an error record of the logger of `zapNew (File 3)` carries a
stack trace on both sinks, an info record carries none. -/
theorem zapNew_stack_trace_witness :
    (((zapNew (Writer.File 3)).l.Log ErrorLevel 0 "failed").1.map
        (fun line => (line.out, line.ent.Stack)) =
      [(WriteSyncer.AddSync (some Writer.Stderr), true),
       (WriteSyncer.AddSync (some (Writer.File 3)), true)]) ∧
    (((zapNew (Writer.File 3)).l.Log InfoLevel 0 "started").1.map
        (fun line => (line.out, line.ent.Stack)) =
      [(WriteSyncer.AddSync (some Writer.Stderr), false),
       (WriteSyncer.AddSync (some (Writer.File 3)), false)]) :=
  ⟨(zapNew_stack_trace (Writer.File 3) _ Logger.After.start ErrorLevel 0 "failed").2.2
      (by decide) rfl,
   (zapNew_stack_trace (Writer.File 3) _ Logger.After.start InfoLevel 0 "started").2.2
      (by decide) rfl⟩

/-! ## C8: the error output -/

theorem NewRaw_errorOutput (o : Options) :
    (NewRaw o).1.errorOutput = WriteSyncer.AddSync o.DestWriter := by
  simp [NewRaw, Logger.WithOptions, List.foldl_append, ZapOption.apply]

/-- C8, the code at the failing input: `NewRawCore` wraps the destination of the
file sink options and appends the redirection of the error output to that
wrapper to their decorator list, and `NewRaw` applies such a list, so that its
logger reports internal errors to its destination; but the logger of `zapNew w`
applies only the list of `zapOptsDefault`: its error output does not depend on
`w`, it is the standard error stream, not the stream of the file sink `File 3`. -/
theorem zapNew_errorOutput_not_file_sink (w : Writer) :
    (NewRawCore (zapFileOpts w defaultLevel defaultStacktraceLevel)).1 =
      Core.NewCore zapNewEncoder (WriteSyncer.AddSync (some w))
        (some (NewAtomicLevelAt InfoLevel)) ∧
    (NewRawCore (zapFileOpts w defaultLevel defaultStacktraceLevel)).2.ZapOpts =
      [samplerOpt, ZapOption.AddStacktrace (NewAtomicLevelAt ErrorLevel),
        ZapOption.ErrorOutput (WriteSyncer.AddSync (some w))] ∧
    (∀ o : Options, (NewRaw o).1.errorOutput = WriteSyncer.AddSync o.DestWriter) ∧
    (∀ w2 : Writer, (zapNew w).l.errorOutput = (zapNew w2).l.errorOutput) ∧
    (zapNew w).l.errorOutput.stream = some Writer.Stderr ∧
    (zapNew (Writer.File 3)).l.errorOutput.stream ≠ some (Writer.File 3) := by
  refine ⟨rfl, ?_, NewRaw_errorOutput, fun _ => rfl, rfl, by decide⟩
  rw [NewRawCore_ZapOpts]
  rfl

/-! ## C5: the sampler on a burst -/

mutual
theorem Core.Check_Enabled : ∀ (c : Core) (ent : Entry) (lvl : Level),
    (c.Check ent).2.Enabled lvl = c.Enabled lvl
  | Core.NewNopCore, _, _ => by simp [Core.Check]
  | Core.NewCore _ _ _, _, _ => by simp [Core.Check, Core.Enabled]
  | Core.multiCore cores, ent, lvl => by
      simp only [Core.Check, Core.Enabled]
      exact Core.checkAll_anyEnabled cores ent lvl
  | Core.sampler core tick first thereafter counts, ent, lvl => by
      rw [sampler_Check]
      split
      · rfl
      · split
        · split
          · rw [sampler_Enabled, sampler_Enabled]
            exact Core.Check_Enabled core ent lvl
          · rfl
        · rw [sampler_Enabled, sampler_Enabled]
          exact Core.Check_Enabled core ent lvl
theorem Core.checkAll_anyEnabled : ∀ (cs : List Core) (ent : Entry) (lvl : Level),
    Core.anyEnabled (Core.checkAll cs ent).2 lvl = Core.anyEnabled cs lvl
  | [], _, _ => by simp [Core.checkAll]
  | c :: cs, ent, lvl => by
      simp only [Core.checkAll, Core.anyEnabled]
      rw [Core.Check_Enabled c ent lvl, Core.checkAll_anyEnabled cs ent lvl]
end

mutual
theorem Core.Check_of_not_Enabled : ∀ (c : Core) (ent : Entry),
    c.Enabled ent.Level = false → (c.Check ent).1 = []
  | Core.NewNopCore, _, _ => by simp [Core.Check]
  | Core.NewCore _ _ _, _, h => by
      simp only [Core.Enabled] at h
      simp [Core.Check, h]
  | Core.multiCore cores, ent, h => by
      simp only [Core.Enabled] at h
      simp only [Core.Check]
      exact Core.checkAll_of_not_anyEnabled cores ent h
  | Core.sampler core tick first thereafter counts, ent, h => by
      rw [sampler_Enabled] at h
      rw [sampler_Check]
      simp [h]
theorem Core.checkAll_of_not_anyEnabled : ∀ (cs : List Core) (ent : Entry),
    Core.anyEnabled cs ent.Level = false → (Core.checkAll cs ent).1 = []
  | [], _, _ => by simp [Core.checkAll]
  | c :: cs, ent, h => by
      simp only [Core.anyEnabled, Bool.or_eq_false_iff] at h
      simp only [Core.checkAll]
      rw [Core.Check_of_not_Enabled c ent h.1, Core.checkAll_of_not_anyEnabled cs ent h.2]
      rfl
end

/-- The decision `samplerDrops` is the one `Check` takes: a dropped record
reaches no sink, any other record reaches the sinks of the wrapped core. -/
theorem sampler_Check_targets (inner : Core) (tick : Int) (first thereafter : Nat)
    (counts : Counters) (ent : Entry) :
    ((Core.sampler inner tick first thereafter counts).Check ent).1 =
      if (Core.sampler inner tick first thereafter counts).samplerDrops ent = true then []
      else (inner.Check ent).1 := by
  rw [sampler_Check, sampler_samplerDrops]
  by_cases he : inner.Enabled ent.Level = true
  · by_cases hs : sampledLevel ent.Level = true
    · by_cases hk : samplerKeeps first thereafter
          ((counts ent.Level ent.Message).IncCheckReset ent.Time tick).1 = true
      · simp [he, hs, hk]
      · simp [he, hs, hk]
    · simp [he, hs]
  · have hf : inner.Enabled ent.Level = false := by simpa using he
    simp [hf, Core.Check_of_not_Enabled inner ent hf]

theorem sampler_runKept (tick : Int) (first thereafter : Nat) (lvl : Level) (msg : String)
    (r : Int) (hs : sampledLevel lvl = true) (ts : List Int) :
    ∀ (inner : Core) (counts : Counters) (k : Nat),
      inner.Enabled lvl = true → counts lvl msg = { resetAt := r, counter := k } →
      (∀ t ∈ ts, t < r) →
      (Core.sampler inner tick first thereafter counts).runKept (burst lvl msg ts) =
        (List.range ts.length).map (fun i => samplerKeeps first thereafter (k + 1 + i)) := by
  induction ts with
  | nil => intro inner counts k _ _ _; rfl
  | cons t ts ih =>
    intro inner counts k he hc hw
    have ht : r > t := hw t (List.mem_cons_self _ _)
    have hinc : (counts lvl msg).IncCheckReset t tick = (k + 1, { resetAt := r, counter := k + 1 }) := by
      simp [Counter.IncCheckReset, hc, ht]
    have hset : (counts.set lvl msg { resetAt := r, counter := k + 1 }) lvl msg =
        { resetAt := r, counter := k + 1 } := by
      simp [Counters.set]
    have hw2 : ∀ u ∈ ts, u < r := fun u hu => hw u (List.mem_cons_of_mem _ hu)
    have hmap : (List.range (t :: ts).length).map
          (fun i => samplerKeeps first thereafter (k + 1 + i)) =
        samplerKeeps first thereafter (k + 1) ::
          (List.range ts.length).map (fun i => samplerKeeps first thereafter (k + 1 + 1 + i)) := by
      rw [List.length_cons, List.range_succ_eq_map, List.map_cons, List.map_map]
      congr 1
      apply List.map_congr_left
      intro i _
      simp only [Function.comp_apply]
      congr 1
      omega
    rw [hmap]
    simp only [burst, List.map_cons, Core.runKept, sampler_samplerDrops, sampler_Check, he, hs,
      hinc, Bool.true_and, Bool.not_not, Bool.not_true, Bool.false_eq_true, if_false, if_true]
    congr 1
    by_cases hk : samplerKeeps first thereafter (k + 1) = true
    · rw [if_pos hk]
      exact ih _ _ (k + 1) ((Core.Check_Enabled inner _ lvl).trans he) hset hw2
    · rw [if_neg hk]
      exact ih _ _ (k + 1) he hset hw2

theorem samplerKeeps_hundred (i : Nat) :
    samplerKeeps 100 100 (i + 1) = decide (i < 100 ∨ (i + 1) % 100 = 0) := by
  by_cases h : i < 100
  · have h1 : ¬ (i + 1 > 100) := by omega
    simp [samplerKeeps, h, h1]
  · have h1 : i + 1 > 100 := by omega
    by_cases hm : (i + 1) % 100 = 0
    · simp only [samplerKeeps, h, h1, hm, false_or, decide_True, Bool.true_and, Bool.not_eq_true',
        Bool.or_eq_false_iff, bne_eq_false_iff_eq, beq_eq_false_iff_ne, ne_eq]
      constructor
      · decide
      · omega
    · simp only [samplerKeeps, h, h1, hm, false_or, decide_True, decide_False, Bool.true_and,
        Bool.not_eq_false', Bool.or_eq_true, bne_iff_ne, ne_eq, beq_iff_eq]
      right
      omega

theorem hundred_pattern_cons (n : Nat) :
    (List.range (n + 1)).map (fun i => decide (i < 100 ∨ (i + 1) % 100 = 0)) =
      true :: (List.range n).map (fun i => samplerKeeps 100 100 (1 + 1 + i)) := by
  rw [List.range_succ_eq_map, List.map_cons, List.map_map, List.cons.injEq]
  refine ⟨by simp, ?_⟩
  apply List.map_congr_left
  intro i _
  simp only [Function.comp_apply]
  rw [show 1 + 1 + i = (i + 1) + 1 by omega, samplerKeeps_hundred]

set_option maxRecDepth 100000 in
theorem hundred_pattern_head :
    ((List.range 1000).map (fun i => decide (i < 100 ∨ (i + 1) % 100 = 0))).take 100 =
      List.replicate 100 true := by
  decide

set_option maxRecDepth 100000 in
theorem hundred_pattern_rest :
    (((List.range 1000).map (fun i => decide (i < 100 ∨ (i + 1) % 100 = 0))).drop 100).count
      true = 9 := by
  decide

set_option maxRecDepth 100000 in
theorem hundred_pattern_blocks :
    ∀ k < 9, ((((List.range 1000).map (fun i => decide (i < 100 ∨ (i + 1) % 100 = 0))).drop
      (100 + 100 * k)).take 100).count true = 1 := by
  decide

/-- C5: the sampler decorator of `zapDefaultOpts` and `zapOptsDefault` has the
window one second, first 100 and thereafter 100. Installed on a logger whose
core is enabled for the level, it treats a burst of 1000 records of one message
and one sampled level, all within the second that starts with the first of
them, as follows: record number `i + 1` passes exactly when `i < 100` or
`i + 1` is a multiple of 100; so the first 100 records all pass and exactly 9 of
the remaining 900 do, one in each hundred. -/
theorem sampler_burst_of_thousand (log : Logger) (lvl : Level) (msg : String) (t0 : Int)
    (ts : List Int) (hlen : ts.length = 999) (hs : sampledLevel lvl = true)
    (he : log.core.Enabled lvl = true) (h0 : 0 ≤ t0)
    (hwin : ∀ t ∈ ts, t0 ≤ t ∧ t < t0 + timeSecond) :
    samplerOpt = ZapOption.WrapCore (CoreWrapper.NewSamplerWithOptions timeSecond 100 100) ∧
    (samplerOpt.apply log).core.runKept (burst lvl msg (t0 :: ts)) =
      (List.range 1000).map (fun i => decide (i < 100 ∨ (i + 1) % 100 = 0)) ∧
    ((samplerOpt.apply log).core.runKept (burst lvl msg (t0 :: ts))).take 100 =
      List.replicate 100 true ∧
    (((samplerOpt.apply log).core.runKept (burst lvl msg (t0 :: ts))).drop 100).count true = 9 ∧
    (∀ k < 9, ((((samplerOpt.apply log).core.runKept
      (burst lvl msg (t0 :: ts))).drop (100 + 100 * k)).take 100).count true = 1) := by
  have key : (samplerOpt.apply log).core.runKept (burst lvl msg (t0 :: ts)) =
      (List.range 1000).map (fun i => decide (i < 100 ∨ (i + 1) % 100 = 0)) := by
    have hinc : (Counters.empty lvl msg).IncCheckReset t0 timeSecond =
        (1, { resetAt := t0 + timeSecond, counter := 1 }) := by
      have : ¬ (0 > t0) := not_lt.mpr h0
      simp [Counter.IncCheckReset, Counters.empty, this]
    have hset : (Counters.empty.set lvl msg { resetAt := t0 + timeSecond, counter := 1 }) lvl msg =
        { resetAt := t0 + timeSecond, counter := 1 } := by
      simp [Counters.set]
    have hrest := sampler_runKept timeSecond 100 100 lvl msg (t0 + timeSecond) hs ts
      (log.core.Check { Level := lvl, Time := t0, Message := msg, Stack := false }).2
      (Counters.empty.set lvl msg { resetAt := t0 + timeSecond, counter := 1 }) 1
      ((Core.Check_Enabled log.core _ lvl).trans he) hset (fun t ht => (hwin t ht).2)
    have hk1 : samplerKeeps 100 100 1 = true := by simp [samplerKeeps]
    have hgoal : (List.range 1000).map (fun i => decide (i < 100 ∨ (i + 1) % 100 = 0)) =
        true :: (List.range ts.length).map (fun i => samplerKeeps 100 100 (1 + 1 + i)) := by
      rw [hlen]
      exact hundred_pattern_cons 999
    rw [hgoal, ← hrest]
    simp only [samplerOpt, ZapOption.apply, CoreWrapper.apply, NewSamplerWithOptions, burst,
      List.map_cons, Core.runKept, sampler_samplerDrops, sampler_Check, he, hs, hinc, hk1,
      Bool.true_and, Bool.not_not, Bool.not_true, Bool.not_false, Bool.false_eq_true, if_false,
      if_true]
  refine ⟨rfl, key, ?_, ?_, ?_⟩
  · rw [key]; exact hundred_pattern_head
  · rw [key]; exact hundred_pattern_rest
  · intro k hk
    rw [key]
    exact hundred_pattern_blocks k hk

/-- Witness of C5: a logger with one info sink on standard error gets the
sampler decorator; of a burst of 1000 info records "tick", the first at time 0
and the others 5 nanoseconds later, the first 100 pass and 9 of the other 900. -/
theorem sampler_burst_of_thousand_witness :
    (((samplerOpt.apply (New (Core.NewCore zapNewEncoder
        (WriteSyncer.AddSync (some Writer.Stderr)) (some defaultLevel)))).core.runKept
      (burst InfoLevel "tick" (0 :: List.replicate 999 5))).take 100 = List.replicate 100 true) ∧
    ((((samplerOpt.apply (New (Core.NewCore zapNewEncoder
        (WriteSyncer.AddSync (some Writer.Stderr)) (some defaultLevel)))).core.runKept
      (burst InfoLevel "tick" (0 :: List.replicate 999 5))).drop 100).count true = 9) :=
  have h := sampler_burst_of_thousand
    (New (Core.NewCore zapNewEncoder (WriteSyncer.AddSync (some Writer.Stderr))
      (some defaultLevel)))
    InfoLevel "tick" 0 (List.replicate 999 5) (List.length_replicate 999 5) rfl rfl (le_refl 0)
    (fun t ht => by rw [List.eq_of_mem_replicate ht]; decide)
  ⟨h.2.2.1, h.2.2.2.1⟩

end ZapExample
